import Mathlib

/-!
Verification development for the esp32c3 bring-up and request/exchange program
(`src/src/main.rs`).  The program is a single async `main` which:

* associates to a wireless network with a bounded retry loop
  (`main.rs` lines 106-133, constants at lines 44-45),
* initialises the network stack with the literal seed `1234` (lines 135-145),
* spawns the background `net_task` once and then awaits DHCP configuration
  (lines 148-150),
* performs one plain-TCP request/response exchange (lines 162-188):
  `connect` to `142.250.185.115:80`, `write` of a fixed HTTP request, `flush`,
  a single `read` into a 512-byte buffer, UTF-8 decode, print, `close`.

The program is modelled as a function from an environment (the outcomes the
hardware, radio and peer supply at each suspension point) to the trace of
observable events `main` emits, in program order.  External library calls
whose bodies are not part of this repository (`core::str::from_utf8`,
embassy-net's `TcpSocket::read` and `Stack::wait_config_up`) are modelled
from the specification, each marked in its doc comment.
-/

namespace Esp32Bringup

/-- Result of the diagnostic `controller.is_connected()` query made right
after a successful association request (`main.rs` lines 114-122):
`Ok(bool)` or an error. -/
inductive DiagStatus where
  | ok (connected : Bool)
  | err
deriving DecidableEq

/-- Observable events of one run of `main`, in program order.  Constructors
mirror the suspension points and prints of `main.rs`.  `tlsHandshake` is the
event a TLS `open` step would emit; the live code contains no such step (TLS
appears only in commented-out code), so the event vocabulary includes it in
order to state its absence. -/
inductive Event where
  | assocRequest (attempt : Nat)
  | diagStatus (r : DiagStatus)
  | retryDelay
  | assocExhausted
  | stackInit (seed : Nat)
  | spawnNetTask
  | waitStart
  | gotAddress
  | tcpConnect (ip : Nat × Nat × Nat × Nat) (port : Nat)
  | tcpConnectFailed
  | tlsHandshake
  | writeReq (bytes : String)
  | writeFailed
  | flushCall
  | flushFailed
  | readCall (cap : Nat)
  | readFailed
  | output (bytes : List Nat)
  | close
deriving DecidableEq

/-- `CONNECT_ATTEMPTS` (`main.rs` line 44). -/
def CONNECT_ATTEMPTS : Nat := 10

/-- `RETRY_DELAY_MS` (`main.rs` line 45). -/
def RETRY_DELAY_MS : Nat := 5000

/-- The stack seed `let seed = 1234;` (`main.rs` line 136). -/
def stackSeed : Nat := 1234

/-- The peer address `Ipv4Address::new(142, 250, 185, 115)` (`main.rs`
line 168). -/
def serverIp : Nat × Nat × Nat × Nat := (142, 250, 185, 115)

/-- The peer port used by `socket.connect` (`main.rs` line 168). -/
def serverPort : Nat := 80

/-- The request written to the socket (`main.rs` line 172). -/
def requestBytes : String := "GET / HTTP/1.0\r\nHost: www.mobile-j.de\r\n\r\n"

/-- Capacity of the response buffer `let mut response = [0; 512];`
(`main.rs` line 181). -/
def responseCap : Nat := 512

/-- Environment of one run: the outcome the outside world supplies at each
suspension point of `main`.  `rngBytes` is the stream of the hardware
random-number generator (`Rng::new(peripherals.RNG)`, `main.rs` line 70);
`connectOk n` is the outcome of the `controller.connect()` call on attempt
`n` (1-indexed); `configUp` says whether `stack.wait_config_up()` ever
completes; `peerBytes` are the bytes the peer has made available when the
single `socket.read` runs. -/
structure Env where
  wifiInitOk : Bool
  connectOk : Nat → Bool
  diag : DiagStatus
  configUp : Bool
  tcpOk : Bool
  writeOk : Bool
  flushOk : Bool
  readOk : Bool
  peerBytes : List Nat
  rngBytes : Nat → Nat

/-- Association retry loop of `main.rs` lines 106-133, as a trace-producing
function.  `a` is the value of the `attempts` counter for the current
iteration (the counter is incremented at the top of the loop, so the first
iteration has `a = 1`); `fuel = max_attempts - a` is the number of further
failed attempts the `attempts >= CONNECT_ATTEMPTS` check still allows, so
`fuel = 0` exactly when `a ≥ max_attempts`.  A successful
`controller.connect()` runs the diagnostic status query and breaks out of
the loop (`true`); a failed attempt with no fuel left returns from `main`
(`false`); otherwise the loop waits `RETRY_DELAY_MS` and retries. -/
def assocGo (connect : Nat → Bool) (diag : DiagStatus) : Nat → Nat → List Event × Bool
  | a, 0 =>
    if connect a then ([.assocRequest a, .diagStatus diag], true)
    else ([.assocRequest a, .assocExhausted], false)
  | a, fuel + 1 =>
    if connect a then ([.assocRequest a, .diagStatus diag], true)
    else
      let rest := assocGo connect diag (a + 1) fuel
      (.assocRequest a :: .retryDelay :: rest.1, rest.2)

/-- The association phase entered with `attempts = 0`, i.e. first request is
attempt 1, and `fuel = max_attempts - 1` further attempts allowed. -/
def attemptAssociation (connect : Nat → Bool) (diag : DiagStatus) (maxA : Nat) :
    List Event × Bool :=
  assocGo connect diag 1 (maxA - 1)

/-- Whether the association phase of a run ends `Connected`. -/
def assocConnected (env : Env) : Bool :=
  (attemptAssociation env.connectOk env.diag CONNECT_ATTEMPTS).2

/-- Modelled from the spec: a UTF-8 continuation byte (`core::str::from_utf8`
is Rust core code, not under `src/`).  Continuation bytes are `0x80..=0xBF`. -/
def utf8Cont (b : Nat) : Bool := 0x80 ≤ b && b ≤ 0xBF

/-- Modelled from the spec: well-formedness of a byte sequence as UTF-8, the
acceptance condition of `core::str::from_utf8` (Rust core, not under
`src/`): ASCII one-byte sequences, two-byte sequences `0xC2..=0xDF`,
three-byte sequences `0xE0..=0xEF` excluding overlongs and surrogates,
four-byte sequences `0xF0..=0xF4` excluding overlongs and values above
`U+10FFFF`. -/
def utf8Valid : List Nat → Bool
  | [] => true
  | b :: rest =>
    if b ≤ 0x7F then utf8Valid rest
    else if b < 0xC2 then false
    else if b ≤ 0xDF then
      match rest with
      | c :: r2 => utf8Cont c && utf8Valid r2
      | [] => false
    else if b ≤ 0xEF then
      match rest with
      | c :: d :: r2 =>
        (if b = 0xE0 then 0xA0 ≤ c && c ≤ 0xBF
         else if b = 0xED then 0x80 ≤ c && c ≤ 0x9F
         else utf8Cont c) && utf8Cont d && utf8Valid r2
      | _ => false
    else if b ≤ 0xF4 then
      match rest with
      | c :: d :: e :: r2 =>
        (if b = 0xF0 then 0x90 ≤ c && c ≤ 0xBF
         else if b = 0xF4 then 0x80 ≤ c && c ≤ 0x8F
         else utf8Cont c) && utf8Cont d && utf8Cont e && utf8Valid r2
      | _ => false
    else false

/-- Decoding of the read bytes (`core::str::from_utf8(&response[..size])`,
`main.rs` line 183): succeeds with the bytes exactly when they are
well-formed UTF-8, otherwise yields the error (`DecodeError::InvalidText`
in the spec's taxonomy), modelled as `none`. -/
def utf8Decode (bs : List Nat) : Option (List Nat) :=
  if utf8Valid bs then some bs else none

/-- Modelled from the spec: the bytes a single `TcpSocket::read` call stores
into a buffer of capacity `cap` (embassy-net code, not under `src/`) — at
most `cap` bytes of what the peer has sent; bytes beyond the capacity are
never stored (truncation, not an error). -/
def socketRead (peer : List Nat) (cap : Nat) : List Nat := peer.take cap

/-- Events of the read-and-decode tail of the exchange (`main.rs` lines
181-186): on a successful read the decoded text is printed when and only
when decoding succeeds; a failed read produces nothing further. -/
def decodeEvents (env : Env) : List Event :=
  if env.readOk then
    match utf8Decode (socketRead env.peerBytes responseCap) with
    | some bs => [.output bs]
    | none => []
  else [.readFailed]

/-- The request/response exchange of `main.rs` lines 162-188.  Note the
control flow of the source: a failed `connect`, `write` or `flush` is only
printed (`if let Err(e) = ... { println!(...) }`) and the following steps
still run; there is no TLS step. -/
def exchangeTrace (env : Env) : List Event :=
  [.tcpConnect serverIp serverPort] ++
  (if env.tcpOk then [] else [.tcpConnectFailed]) ++
  [.writeReq requestBytes] ++
  (if env.writeOk then [] else [.writeFailed]) ++
  [.flushCall] ++
  (if env.flushOk then [] else [.flushFailed]) ++
  [.readCall responseCap] ++
  decodeEvents env ++
  [.close]

/-- The event trace of one run of `main` (`main.rs` lines 48-220).  A failed
Wi-Fi initialisation returns from `main` before the association loop; an
exhausted association loop returns before the stack phase; the stack is
initialised with the literal seed, `net_task` is spawned, and
`stack.wait_config_up()` is awaited — if it never completes the run stays
suspended there and no further event occurs; otherwise the exchange runs.
(`set_configuration`, `start` and `spawn` use `.unwrap()`; their failure
halts the program and is modelled as success here.) -/
def mainTrace (env : Env) : List Event :=
  if env.wifiInitOk = false then []
  else if assocConnected env = false then
    (attemptAssociation env.connectOk env.diag CONNECT_ATTEMPTS).1
  else
    (attemptAssociation env.connectOk env.diag CONNECT_ATTEMPTS).1 ++
      [.stackInit stackSeed, .spawnNetTask, .waitStart] ++
      (if env.configUp then .gotAddress :: exchangeTrace env else [])

/-- Link state as queried from the network stack. -/
inductive LinkState where
  | Down
  | Acquiring
  | Up (addr : Nat)
deriving DecidableEq

/-- Result of the address-acquisition wait. -/
inductive WaitResult where
  | Address (addr : Nat) (elapsed : Nat)
  | TimedOut (elapsed : Nat)
deriving DecidableEq

/-- Modelled from the spec: the loop of `waitForAddress` (§4.2).  The source
(`main.rs` line 150) delegates the wait to embassy-net's
`Stack::wait_config_up`, whose implementation is not under `src/`; the
spec's contract is a poll loop: each iteration checks `LinkState` at the
current elapsed time and returns the address immediately if `Up`; otherwise,
if `elapsed ≥ total_timeout`, it returns `TimedOut`; otherwise it suspends
for `poll` and re-checks.  A `poll = 0` configuration is rejected by the
spec at configuration time; the model folds that rejection into the timeout
exit so the loop is total. -/
def waitGo (link : Nat → LinkState) (total poll : Nat) (elapsed : Nat) : WaitResult :=
  match link elapsed with
  | .Up a => .Address a elapsed
  | _ =>
    if _h : total ≤ elapsed ∨ poll = 0 then .TimedOut elapsed
    else waitGo link total poll (elapsed + poll)
termination_by total - elapsed
decreasing_by omega

/-- Modelled from the spec: `waitForAddress(total_timeout, poll_interval,
log_interval)` (§4.2), started with `elapsed = 0`.  The progress reports
driven by `log_interval` are observational only and carry no result, so the
parameter does not influence the returned value. -/
def waitForAddress (link : Nat → LinkState) (total poll _logInterval : Nat) : WaitResult :=
  waitGo link total poll 0

/-- `occursBefore p q tr = true` when no `q`-event occurs in `tr` strictly
before the first `p`-event: scanning left to right, a `p`-event settles the
question positively and a `q`-event met first settles it negatively. -/
def occursBefore (p q : Event → Bool) : List Event → Bool
  | [] => true
  | e :: tr => if p e then true else !q e && occursBefore p q tr

/-- Event classifiers used to count and locate events in traces. -/
def isAssocRequest : Event → Bool
  | .assocRequest _ => true
  | _ => false

def isRetryDelay : Event → Bool
  | .retryDelay => true
  | _ => false

def isHandshake : Event → Bool
  | .tlsHandshake => true
  | _ => false

def isSpawn : Event → Bool
  | .spawnNetTask => true
  | _ => false

def isWaitStart : Event → Bool
  | .waitStart => true
  | _ => false

def isGotAddress : Event → Bool
  | .gotAddress => true
  | _ => false

def isTcpConnect : Event → Bool
  | .tcpConnect _ _ => true
  | _ => false

def isConnectFailed : Event → Bool
  | .tcpConnectFailed => true
  | _ => false

def isWriteReq : Event → Bool
  | .writeReq _ => true
  | _ => false

def isReadCall : Event → Bool
  | .readCall _ => true
  | _ => false

def isReadFailed : Event → Bool
  | .readFailed => true
  | _ => false

def isOutput : Event → Bool
  | .output _ => true
  | _ => false

def isStackInit : Event → Bool
  | .stackInit _ => true
  | _ => false

/-- Events the association phase may emit. -/
def isAssocKind : Event → Bool
  | .assocRequest _ => true
  | .diagStatus _ => true
  | .retryDelay => true
  | .assocExhausted => true
  | _ => false

/-- A run in which every outcome is favourable: every association attempt
succeeds, DHCP configuration arrives, and connect/write/flush/read all
succeed with a small valid-UTF-8 response. -/
def env0 : Env :=
  { wifiInitOk := true
    connectOk := fun _ => true
    diag := .ok true
    configUp := true
    tcpOk := true
    writeOk := true
    flushOk := true
    readOk := true
    peerBytes := [72, 105]
    rngBytes := fun _ => 0 }

/-- The run of `env0` with the transport connect failing deterministically. -/
def envConnectFail : Env := { env0 with tcpOk := false }

/-- The run of `env0` in which the peer's bytes are not valid UTF-8. -/
def envBad : Env := { env0 with peerBytes := [255] }

/-- The run of `env0` in which the diagnostic status query errors. -/
def envDiagErr : Env := { env0 with diag := .err }

/-- The run of `env0` in which the peer sends 600 bytes, more than the
response buffer's 512-byte capacity. -/
def envBig : Env := { env0 with peerBytes := List.replicate 600 65 }

/-- Every event the association loop emits is an association-phase event. -/
theorem assocGo_events (connect : Nat → Bool) (diag : DiagStatus) :
    ∀ fuel a, ∀ e ∈ (assocGo connect diag a fuel).1, isAssocKind e = true := by
  intro fuel
  induction fuel with
  | zero =>
    intro a e he
    cases h : connect a <;> simp [assocGo, h] at he <;>
      rcases he with h1 | h1 <;> simp [h1, isAssocKind]
  | succ f ih =>
    intro a e he
    cases h : connect a
    · simp [assocGo, h] at he
      rcases he with h1 | h1 | h1
      · simp [h1, isAssocKind]
      · simp [h1, isAssocKind]
      · exact ih (a + 1) e h1
    · simp [assocGo, h] at he
      rcases he with h1 | h1 <;> simp [h1, isAssocKind]

/-- Association-phase events satisfy none of the later-phase classifiers. -/
theorem assocKind_classifiers (e : Event) (h : isAssocKind e = true) :
    isStackInit e = false ∧ isWaitStart e = false ∧ isTcpConnect e = false ∧
    isSpawn e = false ∧ isGotAddress e = false ∧ isOutput e = false ∧
    isReadCall e = false ∧ isReadFailed e = false ∧ isHandshake e = false := by
  cases e <;> simp_all [isAssocKind, isStackInit, isWaitStart, isTcpConnect, isSpawn,
    isGotAddress, isOutput, isReadCall, isReadFailed, isHandshake]

/-- The association loop contributes nothing to a count of non-association
events. -/
theorem assoc_countP_zero (connect : Nat → Bool) (diag : DiagStatus) (fuel a : Nat)
    (p : Event → Bool) (hp : ∀ e, isAssocKind e = true → p e = false) :
    (assocGo connect diag a fuel).1.countP p = 0 := by
  rw [List.countP_eq_zero]
  intro e he
  simp [hp e (assocGo_events connect diag fuel a e he)]

/-- `assoc_countP_zero` restated at the entry point of the loop. -/
theorem attemptAssociation_countP_zero (connect : Nat → Bool) (diag : DiagStatus)
    (maxA : Nat) (p : Event → Bool) (hp : ∀ e, isAssocKind e = true → p e = false) :
    (attemptAssociation connect diag maxA).1.countP p = 0 :=
  assoc_countP_zero connect diag (maxA - 1) 1 p hp

/-- `assocGo_events` restated at the entry point of the loop. -/
theorem attemptAssociation_events (connect : Nat → Bool) (diag : DiagStatus) (maxA : Nat) :
    ∀ e ∈ (attemptAssociation connect diag maxA).1, isAssocKind e = true :=
  fun e he => assocGo_events connect diag (maxA - 1) 1 e he

/-- If the attempts at `a, a+1, ..., a+k-1` fail and the attempt at `a+k`
succeeds (with at least `k` units of fuel left), the loop ends `Connected`
having issued `k+1` association requests, waited `k` retry delays, and run
the diagnostic status query. -/
theorem assocGo_firstSuccess (connect : Nat → Bool) (diag : DiagStatus) :
    ∀ k a fuel, k ≤ fuel → (∀ j, j < k → connect (a + j) = false) →
      connect (a + k) = true →
      (assocGo connect diag a fuel).2 = true ∧
      (assocGo connect diag a fuel).1.countP isAssocRequest = k + 1 ∧
      (assocGo connect diag a fuel).1.countP isRetryDelay = k ∧
      Event.diagStatus diag ∈ (assocGo connect diag a fuel).1 := by
  intro k
  induction k with
  | zero =>
    intro a fuel _ _ hs
    have hs0 : connect a = true := by simpa using hs
    cases fuel <;>
      simp [assocGo, hs0, List.countP_cons, isAssocRequest, isRetryDelay]
  | succ k ih =>
    intro a fuel hk hf hs
    cases fuel with
    | zero => omega
    | succ f =>
      have h0 : connect a = false := by simpa using hf 0 (Nat.succ_pos k)
      have hf2 : ∀ j, j < k → connect (a + 1 + j) = false := by
        intro j hj
        have := hf (j + 1) (by omega)
        rwa [show a + (j + 1) = a + 1 + j by omega] at this
      have hs2 : connect (a + 1 + k) = true := by
        rwa [show a + (k + 1) = a + 1 + k by omega] at hs
      have hmain := ih (a + 1) f (by omega) hf2 hs2
      refine ⟨?_, ?_, ?_, ?_⟩
      · simpa [assocGo, h0] using hmain.1
      · simp [assocGo, h0, List.countP_cons, isAssocRequest, isRetryDelay, hmain.2.1]
      · simp [assocGo, h0, List.countP_cons, isAssocRequest, isRetryDelay, hmain.2.2.1]
      · simp [assocGo, h0]
        exact hmain.2.2.2

/-- If every attempt from `a` through `a + fuel` fails, the loop ends
`Exhausted` having issued `fuel + 1` association requests and waited `fuel`
retry delays. -/
theorem assocGo_allFail (connect : Nat → Bool) (diag : DiagStatus) :
    ∀ fuel a, (∀ j, j ≤ fuel → connect (a + j) = false) →
      (assocGo connect diag a fuel).2 = false ∧
      (assocGo connect diag a fuel).1.countP isAssocRequest = fuel + 1 ∧
      (assocGo connect diag a fuel).1.countP isRetryDelay = fuel := by
  intro fuel
  induction fuel with
  | zero =>
    intro a hf
    have h0 : connect a = false := by simpa using hf 0 (Nat.le_refl 0)
    simp [assocGo, h0, List.countP_cons, isAssocRequest, isRetryDelay]
  | succ f ih =>
    intro a hf
    have h0 : connect a = false := by simpa using hf 0 (Nat.zero_le _)
    have hf2 : ∀ j, j ≤ f → connect (a + 1 + j) = false := by
      intro j hj
      have := hf (j + 1) (by omega)
      rwa [show a + (j + 1) = a + 1 + j by omega] at this
    have hmain := ih (a + 1) hf2
    refine ⟨?_, ?_, ?_⟩
    · simpa [assocGo, h0] using hmain.1
    · simp [assocGo, h0, List.countP_cons, isAssocRequest, isRetryDelay, hmain.2.1]
    · simp [assocGo, h0, List.countP_cons, isAssocRequest, isRetryDelay, hmain.2.2]

/-- An element satisfying `p` cannot belong to a list whose `p`-count is
zero. -/
theorem not_mem_of_countP_zero {p : Event → Bool} {l : List Event}
    (h : l.countP p = 0) {e : Event} (hp : p e = true) : e ∉ l := by
  intro hmem
  have := List.countP_eq_zero.mp h e hmem
  simp [hp] at this

/-- The read-and-decode tail contributes nothing to a count of events that
are neither outputs nor read failures. -/
theorem decodeEvents_countP_zero (env : Env) (p : Event → Bool)
    (hout : ∀ bs, p (.output bs) = false) (hrf : p .readFailed = false) :
    (decodeEvents env).countP p = 0 := by
  unfold decodeEvents
  cases h : env.readOk
  · simp [hrf]
  · cases hd : utf8Decode (socketRead env.peerBytes responseCap) <;>
      simp [hd, hout, hrf]

/-- If decoding fails, the read-and-decode tail emits no output event. -/
theorem decodeEvents_no_output (env : Env)
    (h : utf8Decode (socketRead env.peerBytes responseCap) = none) :
    (decodeEvents env).countP isOutput = 0 := by
  unfold decodeEvents
  cases hr : env.readOk <;> simp [h, isOutput]

/-- If the read succeeds, the read-and-decode tail emits no read-failure
event. -/
theorem decodeEvents_no_readFailed (env : Env) (h : env.readOk = true) :
    (decodeEvents env).countP isReadFailed = 0 := by
  unfold decodeEvents
  cases hd : utf8Decode (socketRead env.peerBytes responseCap) <;>
    simp [h, hd, isReadFailed]

/-- The exchange contributes nothing to a count of events outside its own
vocabulary. -/
theorem exchangeTrace_countP_zero (env : Env) (p : Event → Bool)
    (h1 : ∀ ip port, p (.tcpConnect ip port) = false) (h2 : p .tcpConnectFailed = false)
    (h3 : ∀ s, p (.writeReq s) = false) (h4 : p .writeFailed = false)
    (h5 : p .flushCall = false) (h6 : p .flushFailed = false)
    (h7 : ∀ c, p (.readCall c) = false)
    (hout : ∀ bs, p (.output bs) = false) (hrf : p .readFailed = false)
    (hcl : p .close = false) :
    (exchangeTrace env).countP p = 0 := by
  unfold exchangeTrace
  cases ht : env.tcpOk <;> cases hwk : env.writeOk <;> cases hf : env.flushOk <;>
    simp [List.countP_append, List.countP_cons, h1, h2, h3, h4, h5, h6, h7, hcl,
      decodeEvents_countP_zero env p hout hrf]

/-- The exchange performs exactly one read call. -/
theorem exchange_countP_readCall (env : Env) :
    (exchangeTrace env).countP isReadCall = 1 := by
  unfold exchangeTrace
  cases ht : env.tcpOk <;> cases hwk : env.writeOk <;> cases hf : env.flushOk <;>
    simp [List.countP_append, List.countP_cons, isReadCall,
      decodeEvents_countP_zero env isReadCall (fun bs => rfl) rfl]

/-- If decoding fails, the exchange emits no output event. -/
theorem exchange_no_output (env : Env)
    (h : utf8Decode (socketRead env.peerBytes responseCap) = none) :
    (exchangeTrace env).countP isOutput = 0 := by
  unfold exchangeTrace
  cases ht : env.tcpOk <;> cases hwk : env.writeOk <;> cases hf : env.flushOk <;>
    simp [List.countP_append, List.countP_cons, isOutput, decodeEvents_no_output env h]

/-- If the read succeeds, the exchange emits no read-failure event. -/
theorem exchange_no_readFailed (env : Env) (h : env.readOk = true) :
    (exchangeTrace env).countP isReadFailed = 0 := by
  unfold exchangeTrace
  cases ht : env.tcpOk <;> cases hwk : env.writeOk <;> cases hf : env.flushOk <;>
    simp [List.countP_append, List.countP_cons, isReadFailed,
      decodeEvents_no_readFailed env h]

/-- The exchange always reaches its closing step. -/
theorem exchange_close_mem (env : Env) : Event.close ∈ exchangeTrace env := by
  unfold exchangeTrace
  simp

/-- Prefixes on which neither classifier fires can be dropped from an
`occursBefore` question. -/
theorem occursBefore_append_left (p q : Event → Bool) (l1 l2 : List Event)
    (h : ∀ e ∈ l1, p e = false ∧ q e = false) :
    occursBefore p q (l1 ++ l2) = occursBefore p q l2 := by
  induction l1 with
  | nil => rfl
  | cons e tr ih =>
    have he := h e (List.mem_cons_self e tr)
    simp [occursBefore, he.1, he.2]
    exact ih fun x hx => h x (List.mem_cons_of_mem e hx)

/-- A list with no `q`-event satisfies every `occursBefore _ q` question. -/
theorem occursBefore_of_no_q (p q : Event → Bool) (l : List Event)
    (h : ∀ e ∈ l, q e = false) : occursBefore p q l = true := by
  induction l with
  | nil => rfl
  | cons e tr ih =>
    cases hp : p e
    · have hq := h e (List.mem_cons_self e tr)
      simp [occursBefore, hp, hq]
      exact ih fun x hx => h x (List.mem_cons_of_mem e hx)
    · simp [occursBefore, hp]

/-- Shape of a run that fails Wi-Fi initialisation. -/
theorem mainTrace_no_wifi (env : Env) (hw : env.wifiInitOk = false) :
    mainTrace env = [] := by
  simp [mainTrace, hw]

/-- Shape of a run whose association loop exhausts its attempts. -/
theorem mainTrace_not_connected (env : Env) (hw : env.wifiInitOk = true)
    (ha : assocConnected env = false) :
    mainTrace env = (attemptAssociation env.connectOk env.diag CONNECT_ATTEMPTS).1 := by
  simp [mainTrace, hw, ha]

/-- Shape of a run whose association loop ends `Connected`. -/
theorem mainTrace_connected (env : Env) (hw : env.wifiInitOk = true)
    (ha : assocConnected env = true) :
    mainTrace env =
      (attemptAssociation env.connectOk env.diag CONNECT_ATTEMPTS).1 ++
        [.stackInit stackSeed, .spawnNetTask, .waitStart] ++
        (if env.configUp then .gotAddress :: exchangeTrace env else []) := by
  simp [mainTrace, hw, ha]

/-- The wait loop returns the address as soon as the link reports `Up`. -/
theorem waitGo_up (link : Nat → LinkState) (total poll elapsed a : Nat)
    (h : link elapsed = .Up a) :
    waitGo link total poll elapsed = .Address a elapsed := by
  unfold waitGo
  simp [h]

/-- The wait loop times out when the link is not up and the budget is
spent (or the configuration is the rejected `poll = 0`). -/
theorem waitGo_timeout (link : Nat → LinkState) (total poll elapsed : Nat)
    (h : ∀ a, link elapsed ≠ .Up a) (ht : total ≤ elapsed ∨ poll = 0) :
    waitGo link total poll elapsed = .TimedOut elapsed := by
  unfold waitGo
  cases hl : link elapsed with
  | Up a => exact absurd hl (h a)
  | Down => rw [dif_pos ht]
  | Acquiring => rw [dif_pos ht]

/-- The wait loop steps to the next poll when the link is not up and budget
remains. -/
theorem waitGo_next (link : Nat → LinkState) (total poll elapsed : Nat)
    (h : ∀ a, link elapsed ≠ .Up a) (ht : ¬(total ≤ elapsed ∨ poll = 0)) :
    waitGo link total poll elapsed = waitGo link total poll (elapsed + poll) := by
  conv_lhs => unfold waitGo
  cases hl : link elapsed with
  | Up a => exact absurd hl (h a)
  | Down => rw [dif_neg ht]
  | Acquiring => rw [dif_neg ht]

/-- With a positive poll interval dividing the remaining budget and a link
that never comes up, the wait loop exits with `elapsed` exactly equal to the
total timeout. -/
theorem waitGo_neverUp (link : Nat → LinkState) (total poll : Nat) (hp : 0 < poll)
    (hnu : ∀ t a, link t ≠ .Up a) :
    ∀ k e, total - e = poll * k → e ≤ total →
      waitGo link total poll e = .TimedOut total := by
  intro k
  induction k with
  | zero =>
    intro e hk he
    have he2 : e = total := by omega
    rw [he2]
    exact waitGo_timeout link total poll total (fun a => hnu total a)
      (Or.inl (Nat.le_refl total))
  | succ k ih =>
    intro e hk he
    have hmul : poll * (k + 1) = poll * k + poll := by ring
    rw [hmul] at hk
    have hlt : ¬(total ≤ e ∨ poll = 0) := by omega
    rw [waitGo_next link total poll e (fun a => hnu e a) hlt]
    exact ih (e + poll) (by omega) (by omega)

/-- If the link first reports `Up` at the `k`-th poll within the budget, the
wait loop returns that address with exactly that elapsed time. -/
theorem waitGo_firstUp (link : Nat → LinkState) (total poll : Nat) (hp : 0 < poll) :
    ∀ k e a, (∀ j, j < k → ∀ b, link (e + j * poll) ≠ .Up b) →
      link (e + k * poll) = .Up a → e + k * poll ≤ total →
      waitGo link total poll e = .Address a (e + k * poll) := by
  intro k
  induction k with
  | zero =>
    intro e a _ hup hle
    simp only [Nat.zero_mul, Nat.add_zero] at hup ⊢
    exact waitGo_up link total poll e a hup
  | succ k ih =>
    intro e a hj hup hle
    have h0 : ∀ b, link e ≠ .Up b := by
      intro b
      have := hj 0 (Nat.succ_pos k) b
      simpa using this
    have hlt : ¬(total ≤ e ∨ poll = 0) := by
      rw [show (k + 1) * poll = k * poll + poll by ring] at hle
      omega
    rw [waitGo_next link total poll e h0 hlt]
    have hj2 : ∀ j, j < k → ∀ b, link (e + poll + j * poll) ≠ .Up b := by
      intro j hjk b
      have := hj (j + 1) (by omega) b
      rwa [show e + (j + 1) * poll = e + poll + j * poll by ring] at this
    have hup2 : link (e + poll + k * poll) = .Up a := by
      rwa [show e + (k + 1) * poll = e + poll + k * poll by ring] at hup
    have hle2 : e + poll + k * poll ≤ total := by
      rw [show e + poll + k * poll = e + (k + 1) * poll by ring]
      exact hle
    rw [ih (e + poll) a hj2 hup2 hle2]
    rw [show e + poll + k * poll = e + (k + 1) * poll by ring]

/-- Any stack-initialisation event a run emits carries the literal seed. -/
theorem stackInit_seed (env : Env) (s : Nat) (h : Event.stackInit s ∈ mainTrace env) :
    s = stackSeed := by
  cases hw : env.wifiInitOk
  · rw [mainTrace_no_wifi env hw] at h
    simp at h
  · cases ha : assocConnected env
    · rw [mainTrace_not_connected env hw ha] at h
      have := attemptAssociation_events env.connectOk env.diag CONNECT_ATTEMPTS _ h
      simp [isAssocKind] at this
    · rw [mainTrace_connected env hw ha] at h
      rcases List.mem_append.mp h with h | h
      · rcases List.mem_append.mp h with h | h
        · have := attemptAssociation_events env.connectOk env.diag CONNECT_ATTEMPTS _ h
          simp [isAssocKind] at this
        · simpa using h
      · cases hc : env.configUp
        · simp [hc] at h
        · simp [hc] at h
          have hz := exchangeTrace_countP_zero env isStackInit
            (fun ip port => rfl) rfl (fun t => rfl) rfl rfl rfl (fun c => rfl)
            (fun bs => rfl) rfl rfl
          exact absurd h (not_mem_of_countP_zero hz rfl)

/-- C1: the claim states that after the transport is opened it is wrapped in
a TLS layer and a handshake completes before any request bytes are written.
The code evaluation below exhibits the opposite: in a run where every step
succeeds, the request bytes are written to the raw transport (opened to
port 80), and the trace contains no handshake event at all — the TLS code
of the repository exists only in comments. -/
theorem c1_no_handshake_before_write :
    (mainTrace env0).countP isHandshake = 0 ∧
    Event.writeReq requestBytes ∈ mainTrace env0 ∧
    Event.tcpConnect serverIp serverPort ∈ mainTrace env0 ∧
    serverPort = 80 := by
  decide

/-- C2: the claim states that a failed transport connect aborts the exchange
with no later step running.  The code evaluation below exhibits the
opposite: in the run whose connect fails deterministically, the failure is
(only) reported and the write, flush and read steps all still run, the
write occurring after the connect failure was observed. -/
theorem c2_no_abort_on_connect_failure :
    Event.tcpConnectFailed ∈ mainTrace envConnectFail ∧
    Event.writeReq requestBytes ∈ mainTrace envConnectFail ∧
    Event.flushCall ∈ mainTrace envConnectFail ∧
    Event.readCall responseCap ∈ mainTrace envConnectFail ∧
    occursBefore isConnectFailed isWriteReq (mainTrace envConnectFail) = true := by
  decide

/-- C3: `waitForAddress` always terminates with a bounded result: when the
link first reports `Up(addr)` at some poll within the budget it returns that
address immediately (at that poll's elapsed time); when no address ever
appears it returns `TimedOut` with `elapsed` equal to (hence both at least
and at most) the total timeout; in particular with
`total_timeout = 90000`, `poll = 200`, `log = 30000` and an address that
never appears it returns `TimedOut` with `elapsed = 90000 ≥ 90000`. -/
theorem c3_waitForAddress_bounded (link : Nat → LinkState) (total poll logI : Nat)
    (hp : 0 < poll) (hd : poll ∣ total) :
    ((∀ t a, link t ≠ .Up a) → waitForAddress link total poll logI = .TimedOut total) ∧
    (∀ k a, (∀ j, j < k → ∀ b, link (j * poll) ≠ .Up b) → link (k * poll) = .Up a →
      k * poll ≤ total → waitForAddress link total poll logI = .Address a (k * poll)) ∧
    waitForAddress (fun _ => .Acquiring) 90000 200 30000 = .TimedOut 90000 := by
  refine ⟨?_, ?_, ?_⟩
  · intro hnu
    obtain ⟨k, hk⟩ := hd
    exact waitGo_neverUp link total poll hp hnu k 0 (by omega) (Nat.zero_le _)
  · intro k a hj hup hle
    have h := waitGo_firstUp link total poll hp k 0 a
      (fun j hjk b => by simpa using hj j hjk b) (by simpa using hup) (by simpa using hle)
    simpa [waitForAddress] using h
  · exact waitGo_neverUp (fun _ => .Acquiring) 90000 200 (by norm_num)
      (fun t a => by simp) 450 0 (by norm_num) (by norm_num)

/-- Witness for C3: the hypotheses hold at `poll = 200`, `total = 90000`,
and the never-up instance follows by applying the theorem there. -/
theorem c3_waitForAddress_bounded_witness :
    (0 : Nat) < 200 ∧ (200 : Nat) ∣ 90000 ∧
    waitForAddress (fun _ => .Acquiring) 90000 200 30000 = .TimedOut 90000 :=
  ⟨by norm_num, by norm_num,
    (c3_waitForAddress_bounded (fun _ => .Acquiring) 90000 200 30000
      (by norm_num) (by norm_num)).2.2⟩

/-- C4: for every `max_attempts = n ≥ 1`, if the first `k < n` association
attempts fail and attempt `k+1` succeeds, the association loop returns
`Connected` having issued exactly `k+1` association requests and waited
exactly `k` retry delays. -/
theorem c4_assoc_retry_success (n k : Nat) (connect : Nat → Bool) (diag : DiagStatus)
    (hn : 1 ≤ n) (hk : k < n)
    (hfail : ∀ i, 1 ≤ i → i ≤ k → connect i = false)
    (hsucc : connect (k + 1) = true) :
    (attemptAssociation connect diag n).2 = true ∧
    (attemptAssociation connect diag n).1.countP isAssocRequest = k + 1 ∧
    (attemptAssociation connect diag n).1.countP isRetryDelay = k := by
  have h := assocGo_firstSuccess connect diag k 1 (n - 1) (by omega)
    (fun j hj => hfail (1 + j) (by omega) (by omega))
    (by rw [show 1 + k = k + 1 by omega]; exact hsucc)
  exact ⟨h.1, h.2.1, h.2.2.1⟩

/-- Witness for C4 at `n = 1`, `k = 0`, with the first attempt succeeding. -/
theorem c4_assoc_retry_success_witness :
    (1 : Nat) ≤ 1 ∧ (0 : Nat) < 1 ∧
    (attemptAssociation (fun _ => true) (.ok true) 1).2 = true ∧
    (attemptAssociation (fun _ => true) (.ok true) 1).1.countP isAssocRequest = 1 ∧
    (attemptAssociation (fun _ => true) (.ok true) 1).1.countP isRetryDelay = 0 := by
  have h := c4_assoc_retry_success 1 0 (fun _ => true) (.ok true) (Nat.le_refl 1)
    (Nat.lt_irrefl 0 |> fun _ => Nat.zero_lt_one)
    (fun i h1 h2 => absurd (Nat.le_trans h1 h2) (by omega)) rfl
  exact ⟨Nat.le_refl 1, Nat.zero_lt_one, h.1, h.2.1, h.2.2⟩

/-- C5: if all `n` association attempts fail, the loop returns `Exhausted`
after exactly `n` association requests and `n-1` retry delays, and in the
full program this is fatal: the run's trace contains no stack
initialisation, no address wait, and no transport connect. -/
theorem c5_assoc_exhausted_fatal (n : Nat) (connect : Nat → Bool) (diag : DiagStatus)
    (hn : 1 ≤ n) (hfail : ∀ i, 1 ≤ i → i ≤ n → connect i = false) :
    (attemptAssociation connect diag n).2 = false ∧
    (attemptAssociation connect diag n).1.countP isAssocRequest = n ∧
    (attemptAssociation connect diag n).1.countP isRetryDelay = n - 1 ∧
    ∀ env : Env, (∀ i, 1 ≤ i → i ≤ CONNECT_ATTEMPTS → env.connectOk i = false) →
      (mainTrace env).countP isStackInit = 0 ∧
      (mainTrace env).countP isWaitStart = 0 ∧
      (mainTrace env).countP isTcpConnect = 0 := by
  have hca : CONNECT_ATTEMPTS = 10 := rfl
  have h := assocGo_allFail connect diag (n - 1) 1
    (fun j hj => hfail (1 + j) (by omega) (by omega))
  refine ⟨h.1, ?_, h.2.2, ?_⟩
  · have h2 := h.2.1
    rwa [show n - 1 + 1 = n by omega] at h2
  · intro env henv
    cases hw : env.wifiInitOk
    · rw [mainTrace_no_wifi env hw]
      simp
    · have hfa := assocGo_allFail env.connectOk env.diag (CONNECT_ATTEMPTS - 1) 1
        (fun j hj => henv (1 + j) (by omega) (by omega))
      have ha : assocConnected env = false := hfa.1
      rw [mainTrace_not_connected env hw ha]
      refine ⟨?_, ?_, ?_⟩
      · exact attemptAssociation_countP_zero env.connectOk env.diag CONNECT_ATTEMPTS
          isStackInit (fun e he => (assocKind_classifiers e he).1)
      · exact attemptAssociation_countP_zero env.connectOk env.diag CONNECT_ATTEMPTS
          isWaitStart (fun e he => (assocKind_classifiers e he).2.1)
      · exact attemptAssociation_countP_zero env.connectOk env.diag CONNECT_ATTEMPTS
          isTcpConnect (fun e he => (assocKind_classifiers e he).2.2.1)

/-- Witness for C5 at `n = 2` with every attempt failing, in the run whose
`connect` always fails. -/
theorem c5_assoc_exhausted_fatal_witness :
    (1 : Nat) ≤ 2 ∧
    (attemptAssociation (fun _ => false) (.ok true) 2).2 = false ∧
    (attemptAssociation (fun _ => false) (.ok true) 2).1.countP isAssocRequest = 2 ∧
    (attemptAssociation (fun _ => false) (.ok true) 2).1.countP isRetryDelay = 1 ∧
    ((mainTrace { env0 with connectOk := fun _ => false }).countP isStackInit = 0 ∧
     (mainTrace { env0 with connectOk := fun _ => false }).countP isWaitStart = 0 ∧
     (mainTrace { env0 with connectOk := fun _ => false }).countP isTcpConnect = 0) := by
  have h := c5_assoc_exhausted_fatal 2 (fun _ => false) (.ok true) (by omega)
    (fun i h1 h2 => rfl)
  exact ⟨by omega, h.1, h.2.1, h.2.2.1,
    h.2.2.2 { env0 with connectOk := fun _ => false } (fun i h1 h2 => rfl)⟩

/-- C6: decoding read bytes that are not well-formed UTF-8 yields the decode
error (`DecodeError::InvalidText` in the spec's taxonomy) instead of any
output: the run's trace contains no output event, and the run does not
crash — when the exchange runs, it still reaches its closing step. -/
theorem c6_invalid_decode_no_output (env : Env)
    (hinv : utf8Valid (socketRead env.peerBytes responseCap) = false) :
    utf8Decode (socketRead env.peerBytes responseCap) = none ∧
    (mainTrace env).countP isOutput = 0 ∧
    (env.wifiInitOk = true → assocConnected env = true → env.configUp = true →
      Event.close ∈ mainTrace env) := by
  have hdec : utf8Decode (socketRead env.peerBytes responseCap) = none := by
    simp [utf8Decode, hinv]
  refine ⟨hdec, ?_, ?_⟩
  · cases hw : env.wifiInitOk
    · rw [mainTrace_no_wifi env hw]
      simp
    · cases ha : assocConnected env
      · rw [mainTrace_not_connected env hw ha]
        exact attemptAssociation_countP_zero env.connectOk env.diag CONNECT_ATTEMPTS
          isOutput (fun e he => (assocKind_classifiers e he).2.2.2.2.2.1)
      · rw [mainTrace_connected env hw ha]
        rw [List.countP_append, List.countP_append]
        rw [attemptAssociation_countP_zero env.connectOk env.diag CONNECT_ATTEMPTS
          isOutput (fun e he => (assocKind_classifiers e he).2.2.2.2.2.1)]
        cases hc : env.configUp
        · simp [isOutput, List.countP_cons]
        · simp [isOutput, List.countP_cons, exchange_no_output env hdec]
  · intro hw ha hc
    rw [mainTrace_connected env hw ha, if_pos hc]
    exact List.mem_append_right _ (List.mem_cons_of_mem _ (exchange_close_mem env))

/-- Witness for C6 in the run whose peer sends the invalid byte `0xFF`. -/
theorem c6_invalid_decode_no_output_witness :
    utf8Valid (socketRead envBad.peerBytes responseCap) = false ∧
    utf8Decode (socketRead envBad.peerBytes responseCap) = none ∧
    (mainTrace envBad).countP isOutput = 0 ∧
    Event.close ∈ mainTrace envBad := by
  have h := c6_invalid_decode_no_output envBad (by decide)
  exact ⟨by decide, h.1, h.2.1, h.2.2 rfl (by decide) rfl⟩

/-- C7: when the exchange runs, its trace contains exactly one read call,
the bytes a read stores never exceed the buffer capacity, a peer sending
more than the capacity yields exactly the capacity (silent truncation), and
a successful read produces no read error. -/
theorem c7_single_truncated_read (env : Env) (hw : env.wifiInitOk = true)
    (ha : assocConnected env = true) (hc : env.configUp = true) :
    (mainTrace env).countP isReadCall = 1 ∧
    (socketRead env.peerBytes responseCap).length ≤ responseCap ∧
    (responseCap < env.peerBytes.length →
      (socketRead env.peerBytes responseCap).length = responseCap) ∧
    (env.readOk = true → (mainTrace env).countP isReadFailed = 0) := by
  refine ⟨?_, ?_, ?_, ?_⟩
  · rw [mainTrace_connected env hw ha, if_pos hc]
    rw [List.countP_append, List.countP_append]
    rw [attemptAssociation_countP_zero env.connectOk env.diag CONNECT_ATTEMPTS
      isReadCall (fun e he => (assocKind_classifiers e he).2.2.2.2.2.2.1)]
    simp [isReadCall, List.countP_cons, exchange_countP_readCall env]
  · simp only [socketRead]
    rw [List.length_take]
    omega
  · intro hlen
    simp only [socketRead]
    rw [List.length_take]
    omega
  · intro hr
    rw [mainTrace_connected env hw ha, if_pos hc]
    rw [List.countP_append, List.countP_append]
    rw [attemptAssociation_countP_zero env.connectOk env.diag CONNECT_ATTEMPTS
      isReadFailed (fun e he => (assocKind_classifiers e he).2.2.2.2.2.2.2.1)]
    simp [isReadFailed, List.countP_cons, exchange_no_readFailed env hr]

/-- Witness for C7 in the run whose peer sends 600 bytes, more than the
512-byte response buffer can hold. -/
theorem c7_single_truncated_read_witness :
    envBig.wifiInitOk = true ∧ assocConnected envBig = true ∧ envBig.configUp = true ∧
    ((mainTrace envBig).countP isReadCall = 1 ∧
     (socketRead envBig.peerBytes responseCap).length ≤ responseCap ∧
     (responseCap < envBig.peerBytes.length →
       (socketRead envBig.peerBytes responseCap).length = responseCap) ∧
     (envBig.readOk = true → (mainTrace envBig).countP isReadFailed = 0)) := by
  have h := c7_single_truncated_read envBig rfl (by decide) rfl
  exact ⟨rfl, by decide, rfl, h⟩

/-- C8: in every run the background task is spawned at most once, exactly
once whenever the bring-up reaches the stack phase, always before the
address-acquisition wait begins; and no transport connect occurs before the
wait has returned an address. -/
theorem c8_spawn_once_ordering (env : Env) :
    (mainTrace env).countP isSpawn ≤ 1 ∧
    (env.wifiInitOk = true → assocConnected env = true →
      (mainTrace env).countP isSpawn = 1) ∧
    occursBefore isSpawn isWaitStart (mainTrace env) = true ∧
    occursBefore isGotAddress isTcpConnect (mainTrace env) = true := by
  cases hw : env.wifiInitOk
  · rw [mainTrace_no_wifi env hw]
    refine ⟨by simp, ?_, rfl, rfl⟩
    intro h1 _
    exact absurd h1 (by simp)
  · cases ha : assocConnected env
    · rw [mainTrace_not_connected env hw ha]
      have hz := attemptAssociation_countP_zero env.connectOk env.diag CONNECT_ATTEMPTS
        isSpawn (fun e he => (assocKind_classifiers e he).2.2.2.1)
      refine ⟨by rw [hz]; omega, ?_, ?_, ?_⟩
      · intro _ h2
        exact absurd h2 (by simp)
      · exact occursBefore_of_no_q isSpawn isWaitStart _
          (fun e he => (assocKind_classifiers e
            (attemptAssociation_events _ _ _ e he)).2.1)
      · exact occursBefore_of_no_q isGotAddress isTcpConnect _
          (fun e he => (assocKind_classifiers e
            (attemptAssociation_events _ _ _ e he)).2.2.1)
    · rw [mainTrace_connected env hw ha]
      have hassoc := attemptAssociation_events env.connectOk env.diag CONNECT_ATTEMPTS
      have hzs := attemptAssociation_countP_zero env.connectOk env.diag CONNECT_ATTEMPTS
        isSpawn (fun e he => (assocKind_classifiers e he).2.2.2.1)
      have hspawn1 : ((attemptAssociation env.connectOk env.diag CONNECT_ATTEMPTS).1 ++
          [Event.stackInit stackSeed, Event.spawnNetTask, Event.waitStart] ++
          (if env.configUp then Event.gotAddress :: exchangeTrace env else
            [])).countP isSpawn = 1 := by
        rw [List.countP_append, List.countP_append, hzs]
        cases hc : env.configUp
        · simp [isSpawn, List.countP_cons]
        · have hze := exchangeTrace_countP_zero env isSpawn
            (fun ip port => rfl) rfl (fun t => rfl) rfl rfl rfl (fun c => rfl)
            (fun bs => rfl) rfl rfl
          simp [isSpawn, List.countP_cons, hze]
      refine ⟨by rw [hspawn1], fun _ _ => hspawn1, ?_, ?_⟩
      · rw [List.append_assoc]
        rw [occursBefore_append_left isSpawn isWaitStart _ _
          (fun e he => ⟨(assocKind_classifiers e (hassoc e he)).2.2.2.1,
            (assocKind_classifiers e (hassoc e he)).2.1⟩)]
        simp [occursBefore, isSpawn, isWaitStart]
      · rw [List.append_assoc]
        rw [occursBefore_append_left isGotAddress isTcpConnect _ _
          (fun e he => ⟨(assocKind_classifiers e (hassoc e he)).2.2.2.2.1,
            (assocKind_classifiers e (hassoc e he)).2.2.1⟩)]
        cases hc : env.configUp
        · simp [hc, occursBefore, isGotAddress, isTcpConnect]
        · simp [hc, occursBefore, isGotAddress, isTcpConnect]

/-- Witness for C8 in the all-favourable run. -/
theorem c8_spawn_once_ordering_witness :
    (mainTrace env0).countP isSpawn = 1 ∧
    occursBefore isSpawn isWaitStart (mainTrace env0) = true ∧
    occursBefore isGotAddress isTcpConnect (mainTrace env0) = true := by
  have h := c8_spawn_once_ordering env0
  exact ⟨h.2.1 rfl (by decide), h.2.2.1, h.2.2.2⟩

/-- C9: when an association request succeeds, the link-status query is a
diagnostic side effect only: for every possible status outcome — including
`Ok(false)` and an error — the loop still ends `Connected` and logs the
status, and the bring-up proceeds to the stack phase. -/
theorem c9_diag_side_effect_only (n k : Nat) (connect : Nat → Bool) (hk : k < n)
    (hfail : ∀ j, j < k → connect (1 + j) = false)
    (hsucc : connect (1 + k) = true) :
    (∀ d : DiagStatus, (attemptAssociation connect d n).2 = true ∧
      Event.diagStatus d ∈ (attemptAssociation connect d n).1) ∧
    (∀ env : Env, env.wifiInitOk = true → assocConnected env = true →
      Event.stackInit stackSeed ∈ mainTrace env) := by
  constructor
  · intro d
    have h := assocGo_firstSuccess connect d k 1 (n - 1) (by omega) hfail hsucc
    exact ⟨h.1, h.2.2.2⟩
  · intro env hw ha
    rw [mainTrace_connected env hw ha]
    exact List.mem_append_left _ (List.mem_append_right _ (by simp))

/-- Witness for C9 in the run whose status query errors. -/
theorem c9_diag_side_effect_only_witness :
    (0 : Nat) < 1 ∧
    (attemptAssociation (fun _ => true) DiagStatus.err 1).2 = true ∧
    Event.diagStatus DiagStatus.err ∈
      (attemptAssociation (fun _ => true) DiagStatus.err 1).1 ∧
    Event.stackInit stackSeed ∈ mainTrace envDiagErr := by
  have h := c9_diag_side_effect_only 1 0 (fun _ => true) Nat.zero_lt_one
    (fun j hj => absurd hj (Nat.not_lt_zero j)) rfl
  exact ⟨Nat.zero_lt_one, (h.1 DiagStatus.err).1, (h.1 DiagStatus.err).2,
    h.2 envDiagErr rfl (by decide)⟩

/-- C10: every stack-initialisation event of every run carries the
compile-time constant seed `1234`; in particular the seed is identical
across any two runs, and a run's whole trace is unchanged under any change
of the hardware random-number stream. -/
theorem c10_stack_seed_constant (env1 env2 : Env) (s1 s2 : Nat)
    (h1 : Event.stackInit s1 ∈ mainTrace env1)
    (h2 : Event.stackInit s2 ∈ mainTrace env2) :
    s1 = 1234 ∧ s2 = 1234 ∧ s1 = s2 ∧
    ∀ f g : Nat → Nat,
      mainTrace { env1 with rngBytes := f } = mainTrace { env1 with rngBytes := g } := by
  have e1 : s1 = stackSeed := stackInit_seed env1 s1 h1
  have e2 : s2 = stackSeed := stackInit_seed env2 s2 h2
  refine ⟨e1, e2, by rw [e1, e2], ?_⟩
  intro f g
  cases env1
  rfl

/-- Witness for C10: both runs are the all-favourable run, whose trace
contains the stack initialisation with seed `1234`. -/
theorem c10_stack_seed_constant_witness :
    (1234 : Nat) = 1234 ∧ (1234 : Nat) = 1234 ∧ (1234 : Nat) = 1234 ∧
    ∀ f g : Nat → Nat,
      mainTrace { env0 with rngBytes := f } = mainTrace { env0 with rngBytes := g } :=
  c10_stack_seed_constant env0 env0 1234 1234 (by decide) (by decide)

end Esp32Bringup
